import Mathlib

/-!
Verification development for the `Artsketchpython` repository.

The engineering core of the repository is the function `_pencil_sketch` in
`src/sketch/views.py`: an image-to-pencil-sketch pipeline built from PIL and
numpy primitives.  This file gives a shallow embedding of that function and of
the library primitives it calls, and proves/refutes the specification claims
about it.

Modelling conventions (each is noted again at the definition it concerns):
* Images are 8-bit buffers: pixel values are `Nat` bytes (0..255 for valid
  images), stored row-major in a `List Nat` together with the width and height.
* All stage-internal float32/float64 arithmetic of the source is modelled by
  exact rational arithmetic, realised over `Nat`/`Int` with explicit floor
  divisions (the float constants 0.85, 0.15, 0.35, 1e-4, ... are exact
  rationals, so the formulas below are the exact values the source computes,
  up to float32 rounding which is immaterial at the claim level).
* `numpy`'s `astype(np.uint8)` after `np.clip(_, 0, 255)` is truncation toward
  zero of a value already clamped into [0, 255]; it is modelled by clamping
  followed by floor.
* `Image.open(...)` is a PIL library call whose only effect used by the
  pipeline is: it either decodes the input bytes to an RGB raster or raises a
  decode error.  It is modelled by an `Option RgbImg` argument (`none` models
  undecodable/corrupt/zero-byte input) and the pipeline returns
  `Except PipelineError RgbImg`, with `PipelineError.decodeError` modelling the
  raised decode exception surfacing to the caller.
* `np.random.normal(loc=128, scale=18, size=(h, w))` draws the grain noise
  from the ambient global random state; `_pencil_sketch` takes no seed.  The
  ambient draws (after the truncation performed by the subsequent uint8
  conversion) are modelled by an explicit argument `noise : Nat → Nat → Int`,
  so that facts about how the output depends on the ambient randomness can be
  stated.
-/

/-- A single-channel (luminance) 8-bit raster: width, height, and the pixel
buffer in row-major order.  Mirrors a PIL mode-"L" image / 2-d numpy array. -/
structure Img where
  w : Nat
  h : Nat
  px : List Nat
deriving DecidableEq, Repr

/-- A 3-channel RGB 8-bit raster, one buffer per channel. -/
structure RgbImg where
  w : Nat
  h : Nat
  r : List Nat
  g : List Nat
  b : List Nat
deriving DecidableEq, Repr

/-- Clamp an integer into the byte range [0, 255] (C/numpy `clip` to uint8). -/
def clipByteI (x : Int) : Nat :=
  if x < 0 then 0 else if 255 < x then 255 else x.toNat

/-- Pixel of `i` at row `y`, column `x`, with coordinates clamped to the image
(replicate-border addressing, as PIL's filters use at the image edge). -/
def getClamped (i : Img) (y x : Nat) : Nat :=
  i.px.getD ((min y (i.h - 1)) * i.w + min x (i.w - 1)) 0

/-- Build an image of size `w × h` from a per-coordinate pixel function. -/
def mkImg (w h : Nat) (f : Nat → Nat → Nat) : Img :=
  ⟨w, h, (List.range (w * h)).map (fun k => f (k / w) (k % w))⟩

/-- The list of pixels in the `(2r+1) × (2r+1)` window centred at `(y, x)`,
with replicate-border addressing (`Nat` subtraction clamps at the border). -/
def windowPx (r : Nat) (i : Img) (y x : Nat) : List Nat :=
  (List.range (2 * r + 1)).flatMap
    (fun dy => (List.range (2 * r + 1)).map
      (fun dx => getClamped i (y + dy - r) (x + dx - r)))

/-- Insert into a sorted list (ascending). -/
def insertAsc (a : Nat) : List Nat → List Nat
  | [] => [a]
  | b :: t => if a ≤ b then a :: b :: t else b :: insertAsc a t

/-- Insertion sort, ascending. -/
def sortAsc (l : List Nat) : List Nat :=
  l.foldr insertAsc []

/-- Model of PIL `ImageOps.grayscale` / `convert("L")`: ITU-R 601-2 luma,
`L = (19595 R + 38470 G + 7471 B + 32768) >> 16` (Pillow's exact integer
formula, including the rounding term). -/
def grayscale (c : RgbImg) : Img :=
  ⟨c.w, c.h,
    (List.range (c.r.length)).map (fun k =>
      (19595 * c.r.getD k 0 + 38470 * c.g.getD k 0 + 7471 * c.b.getD k 0
        + 32768) / 65536)⟩

/-- Replicate a luminance image into RGB, as PIL `convert("RGB")` does on a
mode-"L" image. -/
def toRGB (i : Img) : RgbImg :=
  ⟨i.w, i.h, i.px, i.px, i.px⟩

/-- Model of PIL `ImageOps.invert` on a mode-"L" image: `255 - v`. -/
def invert (i : Img) : Img :=
  ⟨i.w, i.h, i.px.map (fun v => 255 - v)⟩

/-- Histogram of a pixel buffer: 256 bins of byte-value counts, as
`Image.histogram()` returns for a mode-"L" image. -/
def histogram (px : List Nat) : List Nat :=
  (List.range 256).map (fun v => px.count v)

/-- Remove `cut` pixels of count from the low end of a histogram (the low-end
cutoff loop of PIL `ImageOps.autocontrast`). -/
def cutLow : List Nat → Nat → List Nat
  | hst, 0 => hst
  | [], _ => []
  | x :: t, cut => if cut > x then 0 :: cutLow t (cut - x) else (x - cut) :: t

/-- Remove `cut` pixels of count from the high end of a histogram. -/
def cutHigh (hst : List Nat) (cut : Nat) : List Nat :=
  (cutLow hst.reverse cut).reverse

/-- Lowest occupied bin of a histogram (255 when all bins are empty, matching
the final value of PIL's search loop). -/
def histLo (hst : List Nat) : Nat :=
  ((hst.findIdx? (fun n => n ≠ 0)).getD 255)

/-- Highest occupied bin of a histogram (0 when all bins are empty). -/
def histHi (hst : List Nat) : Nat :=
  255 - ((hst.reverse.findIdx? (fun n => n ≠ 0)).getD 255)

/-- Model of PIL `ImageOps.autocontrast(image, cutoff)`.

`cutoffCpct` is the cutoff in hundredths of a percent (the source passes the
float cutoffs 1, 2, 0.5, which are 100, 200, 50 here; `n*cutoff//100` of the
source equals `n*cutoffCpct/10000` exactly).  PIL removes `cut` pixels from
each end of the histogram, takes the lowest/highest remaining occupied bins
`lo`/`hi`, and if `lo < hi` remaps linearly with truncation
`v ↦ clip((v - lo) * 255 / (hi - lo))`, else leaves the image unchanged. -/
def autocontrast (cutoffCpct : Nat) (i : Img) : Img :=
  let h0 := histogram i.px
  let n := h0.sum
  let cut := n * cutoffCpct / 10000
  let h1 := cutHigh (cutLow h0 cut) cut
  let lo := histLo h1
  let hi := histHi h1
  if hi ≤ lo then i
  else ⟨i.w, i.h,
    i.px.map (fun v => if v ≤ lo then 0 else min 255 ((v - lo) * 255 / (hi - lo)))⟩

/-- Sum of the `(2r+1) × (2r+1)` window centred at `(y, x)` with
replicate-border addressing, summed row by row. -/
def windowSum (r : Nat) (i : Img) (y x : Nat) : Nat :=
  ((List.range (2 * r + 1)).map
    (fun dy => ((List.range (2 * r + 1)).map
      (fun dx => getClamped i (y + dy - r) (x + dx - r))).sum)).sum

/-- Model of PIL `ImageFilter.GaussianBlur(radius)` as a normalized box blur
with replicate borders and round-to-nearest output bytes; `r` is the ceiling
of the requested float radius (PIL itself approximates its Gaussian by box
blurs).  With `k = 2r+1`, `round(s / k²)` is computed as
`(2 s + k²) / (2 k²)` in `Nat`. -/
def gaussianBlur (r : Nat) (i : Img) : Img :=
  mkImg i.w i.h (fun y x =>
    (2 * windowSum r i y x + (2 * r + 1) * (2 * r + 1))
      / (2 * ((2 * r + 1) * (2 * r + 1))))

/-- Model of PIL `ImageFilter.UnsharpMask(radius, percent, threshold)`:
pixels whose difference from their Gaussian blur exceeds `threshold` are
boosted by `percent`% of that difference (C integer arithmetic, truncating
division), then clipped to a byte; `r` is the ceiling of the float radius. -/
def unsharpMask (r : Nat) (percent threshold : Nat) (i : Img) : Img :=
  let bl := gaussianBlur r i
  mkImg i.w i.h (fun y x =>
    let v : Int := getClamped i y x
    let d : Int := v - getClamped bl y x
    if threshold < d.natAbs then clipByteI (v + Int.tdiv (d * percent) 100)
    else getClamped i y x)

/-- Model of PIL `ImageFilter.FIND_EDGES`: the 3×3 kernel
`(-1 .. -1, 8, -1 .. -1)` with scale 1 and offset 0, output clipped to a byte;
the one-pixel border is copied from the input, as PIL's 3×3 convolution
leaves it. -/
def findEdges (i : Img) : Img :=
  mkImg i.w i.h (fun y x =>
    if y = 0 ∨ y = i.h - 1 ∨ x = 0 ∨ x = i.w - 1 then getClamped i y x
    else
      let c : Int := getClamped i y x
      let s : Int := (windowPx 1 i y x).sum
      clipByteI (9 * c - s))

/-- Model of PIL `ImageFilter.MedianFilter(size=3)`: the 3×3 window median
(rank `size*size//2 = 4` of the 9 sorted values), with the replicate-border
padding PIL's rank filter applies via `image.expand`. -/
def medianFilter3 (i : Img) : Img :=
  mkImg i.w i.h (fun y x => (sortAsc (windowPx 1 i y x)).getD 4 0)

/-- Model of PIL `ImageFilter.MaxFilter(size=3)`: the 3×3 window maximum,
with replicate-border padding. -/
def maxFilter3 (i : Img) : Img :=
  mkImg i.w i.h (fun y x => (windowPx 1 i y x).foldr max 0)

/-- `lines[mask] = 60` over `lines = full(255)` with `mask = edges ≥ threshold`
(source lines 59-62).  The threshold is `np.percentile(edges, 92.0)`, a
rational with denominator dividing 100; `thr100` is 100 times it, so the
comparison `e ≥ threshold` is `100 e ≥ thr100` exactly. -/
def binarize (thr100 : Nat) (i : Img) : Img :=
  ⟨i.w, i.h, i.px.map (fun e => if thr100 ≤ 100 * e then 60 else 255)⟩

/-- 100 times `np.percentile(px, 92.0)` (numpy's default linear-interpolation
percentile): with `s` the sorted buffer, `rank = 92 (n-1) / 100 = k + f/100`,
the percentile is `s[k] + (f/100) (s[k+1] - s[k])`; this returns
`100 s[k] + f (s[k+1] - s[k])`, an exact `Nat`. -/
def percentile92x100 (px : List Nat) : Nat :=
  let s := sortAsc px
  let n := px.length
  let rk := 92 * (n - 1)
  let k := rk / 100
  let f := rk % 100
  let a := s.getD k 0
  let bNext := s.getD (k + 1) a
  100 * a + f * (bNext - a)

/-- The texture raster built from the ambient noise draws (source lines
40-41): each float draw is clipped to [0, 255] and truncated to a byte;
`noise y x` models the floor of the draw at `(y, x)`, so the byte is
`clip(noise y x)`. -/
def textureImg (w h : Nat) (noise : Nat → Nat → Int) : Img :=
  mkImg w h (fun y x => clipByteI (noise y x))

/-- The dodge blend of source line 32:
`np.clip(gray * 255.0 / (255.0 - blur + 1e-4), 0, 255)` followed by the uint8
truncation of line 35.  With byte inputs `g`, `b` (`b ≤ 255`) the value is
`⌊255 g / (255 - b + 1/10000)⌋ = 2550000 g / (2550001 - 10000 b)` exactly,
computed here as a `Nat` floor division, clipped above at 255. -/
def dodgePix (g b : Nat) : Nat :=
  min 255 (2550000 * g / (2550001 - 10000 * b))

/-- The full dodge stage: pixelwise `dodgePix` over `gray` and `blurred`. -/
def dodgeBlend (gray blurred : Img) : Img :=
  ⟨gray.w, gray.h, List.zipWith dodgePix gray.px blurred.px⟩

/-- `np.clip(0.85 * sharp + 0.15 * texture, 0, 255)` with uint8 truncation
(source line 46): exactly `⌊(17 s + 3 t) / 20⌋`, at most 255 for byte
inputs. -/
def blend8515 (sharp texture : Img) : Img :=
  ⟨sharp.w, sharp.h,
    List.zipWith (fun s t => min 255 ((17 * s + 3 * t) / 20)) sharp.px texture.px⟩

/-- `np.clip(0.65 * lumi + 0.35 * strokes, 0, 255)` with uint8 truncation
(source line 74): exactly `⌊(13 l + 7 s) / 20⌋`. -/
def blend6535 (lumi strokes : Img) : Img :=
  ⟨lumi.w, lumi.h,
    List.zipWith (fun l s => min 255 ((13 * l + 7 * s) / 20)) lumi.px strokes.px⟩

/-- The depth strength lookup of source line 83:
`{"none": 0.0, "light": 0.22, "medium": 0.38, "deep": 0.55}.get(d, 0.38)`,
returned in hundredths (`s = shadeStrength d / 100`). -/
def shadeStrength (sketch_depth : String) : Nat :=
  if sketch_depth = "none" then 0
  else if sketch_depth = "light" then 22
  else if sketch_depth = "medium" then 38
  else if sketch_depth = "deep" then 55
  else 38

/-- One pixel of the depth blend of source line 89:
`np.clip((1 - 0.35 s) * sketch + s * tone, 0, 255)` with uint8 truncation,
for `s = k/100`: exactly `⌊((10000 - 35 k) a + 100 k t) / 10000⌋`, clipped
above at 255. -/
def depthBlendPix (k a t : Nat) : Nat :=
  min 255 (((10000 - 35 * k) * a + 100 * k * t) / 10000)

/-- The depth blend raster (source line 89), pixelwise `depthBlendPix`. -/
def depthBlend (k : Nat) (sketch tone : Img) : Img :=
  ⟨sketch.w, sketch.h, List.zipWith (depthBlendPix k) sketch.px tone.px⟩

/-- The depth-shading stage of source lines 83-92: look up the strength; when
it is positive, blur `gray` (radius 3.2), autocontrast it (cutoff 2), blend it
into the sketch luminance, and autocontrast the result (cutoff 1); when the
strength is 0, pass the sketch through unchanged. -/
def depthStage (gray sketch : Img) (sketch_depth : String) : Img :=
  let shade_strength := shadeStrength sketch_depth
  if 0 < shade_strength then
    let tone := autocontrast 200 (gaussianBlur 4 gray)
    autocontrast 100 (depthBlend shade_strength sketch tone)
  else sketch

/-- The trace style variant (source lines 51-67): median-denoise and blur
`gray`, detect edges, autocontrast (cutoff 1), binarize at the 92nd
percentile (foreground 60, background 255), apply the 3×3 max filter. -/
def traceRender (gray : Img) : Img :=
  let base := gaussianBlur 2 (medianFilter3 gray)
  let edges := autocontrast 100 (findEdges base)
  let lines := binarize (percentile92x100 edges.px) edges
  maxFilter3 lines

/-- The artistic style variant (source lines 68-76): edge strokes from `gray`
(autocontrast cutoff 2, unsharp 1.2/250/1), blended 65/35 with the base-sketch
luminance, then unsharp 1.5/160/2. -/
def artisticRender (gray luminance : Img) : Img :=
  let strokes := unsharpMask 2 250 1 (autocontrast 200 (findEdges gray))
  let mixed := blend6535 luminance strokes
  unsharpMask 2 160 2 mixed

/-- The clean style variant (source lines 77-80): autocontrast the base-sketch
luminance (cutoff 0.5) and unsharp 1.1/140/2. -/
def cleanRender (luminance : Img) : Img :=
  unsharpMask 2 140 2 (autocontrast 50 luminance)

/-- The style dispatch of source lines 51-80, returning the styled image and
the effective depth selector: the trace branch reassigns `sketch_depth` to
`"none"` (source line 67); the other branches leave it unchanged, and any
style other than `"trace"`/`"artistic"` takes the `else` (clean) branch. -/
def styleStage (sketch_style sketch_depth : String) (gray luminance : Img) :
    Img × String :=
  if sketch_style = "trace" then (traceRender gray, "none")
  else if sketch_style = "artistic" then (artisticRender gray luminance, sketch_depth)
  else (cleanRender luminance, sketch_depth)

/-- PIL `Image.thumbnail((m, m))` size computation: no-op when both dimensions
already fit; otherwise the long edge becomes `m` and the short edge is the
aspect-preserving value rounded to the nearer integer (ties to the floor,
as PIL's `round_aspect` takes), and at least 1. -/
def roundAspectN (num den : Nat) : Nat :=
  max 1 (if 2 * (num % den) ≤ den then num / den else num / den + 1)

/-- The dimensions `Image.thumbnail((m, m))` produces from a `w × h` image. -/
def thumbDims (m w h : Nat) : Nat × Nat :=
  if w ≤ m ∧ h ≤ m then (w, h)
  else if w ≤ h then (roundAspectN (m * w) h, m)
  else (m, roundAspectN (m * h) w)

/-- Nearest-neighbour resampling of a single channel to `w' × h'` (model of
PIL's resampling; only the dimensions matter for the claims below). -/
def resampleChan (w h : Nat) (px : List Nat) (w' h' : Nat) : List Nat :=
  (List.range (w' * h')).map (fun k =>
    let x := k % w'
    let y := k / w'
    px.getD ((y * h / h') * w + x * w / w') 0)

/-- Model of PIL `Image.thumbnail((m, m))` on an RGB image: resample every
channel to `thumbDims m w h` (a no-op on the pixel data when the size is
unchanged, as nearest-neighbour resampling at the identity scale returns the
same buffer, matching PIL's early return). -/
def rgbThumbnail (m : Nat) (c : RgbImg) : RgbImg :=
  let d := thumbDims m c.w c.h
  ⟨d.1, d.2, resampleChan c.w c.h c.r d.1 d.2, resampleChan c.w c.h c.g d.1 d.2,
    resampleChan c.w c.h c.b d.1 d.2⟩

/-- The output-size lookup of source lines 95-96:
`{"orig": None, "lg": 1600, "md": 1024, "sm": 720, "xs": 480}.get(z, None)`. -/
def sizeTarget (output_size : String) : Option Nat :=
  if output_size = "lg" then some 1600
  else if output_size = "md" then some 1024
  else if output_size = "sm" then some 720
  else if output_size = "xs" then some 480
  else none

/-- The optional final resize of source lines 95-98. -/
def finishStage (output_size : String) (c : RgbImg) : RgbImg :=
  match sizeTarget output_size with
  | some t => rgbThumbnail t c
  | none => c

/-- The error surfaced when the input bytes cannot be decoded (PIL's decode
exception propagating out of `_pencil_sketch`, the spec's `DecodeError`). -/
inductive PipelineError
  | decodeError
deriving DecidableEq, Repr

/-- `gray` of source lines 20-25: decode result normalized by the 1800-cap
thumbnail, projected to luminance, autocontrasted with cutoff 1 (the spec's
`grayBase`). -/
def grayBase (img0 : RgbImg) : Img :=
  autocontrast 100 (grayscale (rgbThumbnail 1800 img0))

/-- `blended` of source lines 27-46: the dodge blend of `gray` against the
blurred inversion, unsharp-sharpened (2/180/2), then mixed 85/15 with the
blurred grain texture. -/
def baseSketch (img0 : RgbImg) (noise : Nat → Nat → Int) : Img :=
  let gray := grayBase img0
  let inverted := invert gray
  let blurred := gaussianBlur 22 inverted
  let dodge := dodgeBlend gray blurred
  let sharp := unsharpMask 2 180 2 dodge
  let texture := gaussianBlur 2 (textureImg sharp.w sharp.h noise)
  blend8515 sharp texture

/-- The decoded-image part of `_pencil_sketch` (source lines 20-100): the
whole pipeline on an already decoded RGB raster.  Mirrors the source line by
line; the `let`s carry the source's local names (`base_sketch` is the RGB
replication of `blended`, and `luminance` its `convert("L")`, which on
replicated RGB is the identity on bytes). -/
def pencil_core (img0 : RgbImg) (noise : Nat → Nat → Int)
    (sketch_style sketch_depth output_size : String) : RgbImg :=
  let gray := grayBase img0
  let base_sketch := toRGB (baseSketch img0 noise)
  let luminance := grayscale base_sketch
  let styled := styleStage sketch_style sketch_depth gray luminance
  let sketch := depthStage gray styled.1 styled.2
  finishStage output_size (toRGB sketch)

/-- Shallow embedding of `_pencil_sketch` (source lines 18-100).  The
file-like first argument is replaced by the decode result (`none` = the
decode raises), and the ambient noise draws are the explicit `noise`
argument; the three selector strings are passed exactly as in the source. -/
def pencil_sketch (decoded : Option RgbImg) (noise : Nat → Nat → Int)
    (sketch_style sketch_depth output_size : String) :
    Except PipelineError RgbImg :=
  match decoded with
  | none => .error .decodeError
  | some img0 => .ok (pencil_core img0 noise sketch_style sketch_depth output_size)

/-- The rendered output as a total function of a decoded input (the pipeline
never fails after a successful decode; see the claim-C8 theorem). -/
def renderOut (img0 : RgbImg) (noise : Nat → Nat → Int)
    (sketch_style sketch_depth output_size : String) : RgbImg :=
  pencil_core img0 noise sketch_style sketch_depth output_size

/-- The dimensions the optional final resize (source lines 95-98) produces
from a `w × h` image. -/
def finishDims (output_size : String) (w h : Nat) : Nat × Nat :=
  match sizeTarget output_size with
  | some t => thumbDims t w h
  | none => (w, h)

/-- The two-stage dimension behaviour of the pipeline: the initial 1800-cap
thumbnail (source line 21) followed by the optional output-size thumbnail
(source lines 95-98). -/
def pipeDims (output_size : String) (w h : Nat) : Nat × Nat :=
  finishDims output_size (thumbDims 1800 w h).1 (thumbDims 1800 w h).2

/-- The long-edge cap the spec assigns to each requested output size:
the requested size for the four enumerated sizes, 1800 otherwise
("original" and unrecognized codes skip the final resize, so only the
initial 1800 cap applies). -/
def sizeCap (output_size : String) : Nat :=
  match sizeTarget output_size with
  | some t => t
  | none => 1800

/-- Mean absolute per-pixel difference of two RGB rasters of the same size
(the distance the depth-monotonicity spec property is stated in). -/
def meanAbsDiff (a b : RgbImg) : ℚ :=
  (((List.zipWith (fun x y => ((x : Int) - y).natAbs) a.r b.r).sum
    + (List.zipWith (fun x y => ((x : Int) - y).natAbs) a.g b.g).sum
    + (List.zipWith (fun x y => ((x : Int) - y).natAbs) a.b b.b).sum : Nat) : ℚ)
    / (3 * a.w * a.h)

/-- The depth blend of source line 89 before clipping and uint8 truncation,
as the exact rational the float code computes: `s = k/100` and
`(1 - 0.35 s) a + s t`. -/
def depthBlendQ (k a t : Nat) : ℚ :=
  (1 - (7 / 20) * ((k : ℚ) / 100)) * (a : ℚ) + ((k : ℚ) / 100) * (t : ℚ)

/-- Decidable equality for `Except`, so concrete pipeline results can be
compared by `decide`. -/
instance {e a : Type} [DecidableEq e] [DecidableEq a] : DecidableEq (Except e a) := fun x y =>
  match x, y with
  | .error v, .error w =>
    if h : v = w then isTrue (by rw [h]) else isFalse (fun he => h (Except.error.inj he))
  | .ok v, .ok w =>
    if h : v = w then isTrue (by rw [h]) else isFalse (fun he => h (Except.ok.inj he))
  | .error _, .ok _ => isFalse (fun he => Except.noConfusion he)
  | .ok _, .error _ => isFalse (fun he => Except.noConfusion he)

theorem getD_le_of_forall_le {l : List Nat} (hl : ∀ v ∈ l, v ≤ 255) (k : Nat) :
    l.getD k 0 ≤ 255 := by
  induction l generalizing k with
  | nil => simp [List.getD]
  | cons a t ih =>
    cases k with
    | zero => exact hl a (by simp)
    | succ k => exact ih (fun v hv => hl v (by simp [hv])) k

theorem zipWith_getD {f : Nat → Nat → Nat} {a b : List Nat} {k : Nat}
    (hk : k < (List.zipWith f a b).length) :
    (List.zipWith f a b).getD k 0 = f (a.getD k 0) (b.getD k 0) := by
  induction a generalizing b k with
  | nil => simp at hk
  | cons x t ih =>
    cases b with
    | nil => simp at hk
    | cons y s =>
      cases k with
      | zero => rfl
      | succ k =>
        simp only [List.zipWith_cons_cons, List.length_cons, Nat.succ_lt_succ_iff] at hk
        simpa using ih hk

@[simp] theorem mkImg_w (w h : Nat) (f : Nat → Nat → Nat) : (mkImg w h f).w = w := rfl

@[simp] theorem mkImg_h (w h : Nat) (f : Nat → Nat → Nat) : (mkImg w h f).h = h := rfl

@[simp] theorem autocontrast_w (c : Nat) (i : Img) : (autocontrast c i).w = i.w := by
  simp only [autocontrast]
  split <;> rfl

@[simp] theorem autocontrast_h (c : Nat) (i : Img) : (autocontrast c i).h = i.h := by
  simp only [autocontrast]
  split <;> rfl

@[simp] theorem gaussianBlur_w (r : Nat) (i : Img) : (gaussianBlur r i).w = i.w := rfl

@[simp] theorem gaussianBlur_h (r : Nat) (i : Img) : (gaussianBlur r i).h = i.h := rfl

@[simp] theorem unsharpMask_w (r p t : Nat) (i : Img) : (unsharpMask r p t i).w = i.w := rfl

@[simp] theorem unsharpMask_h (r p t : Nat) (i : Img) : (unsharpMask r p t i).h = i.h := rfl

@[simp] theorem findEdges_w (i : Img) : (findEdges i).w = i.w := rfl

@[simp] theorem findEdges_h (i : Img) : (findEdges i).h = i.h := rfl

@[simp] theorem medianFilter3_w (i : Img) : (medianFilter3 i).w = i.w := rfl

@[simp] theorem medianFilter3_h (i : Img) : (medianFilter3 i).h = i.h := rfl

@[simp] theorem maxFilter3_w (i : Img) : (maxFilter3 i).w = i.w := rfl

@[simp] theorem maxFilter3_h (i : Img) : (maxFilter3 i).h = i.h := rfl

@[simp] theorem binarize_w (t : Nat) (i : Img) : (binarize t i).w = i.w := rfl

@[simp] theorem binarize_h (t : Nat) (i : Img) : (binarize t i).h = i.h := rfl

@[simp] theorem grayscale_w (c : RgbImg) : (grayscale c).w = c.w := rfl

@[simp] theorem grayscale_h (c : RgbImg) : (grayscale c).h = c.h := rfl

@[simp] theorem toRGB_w (i : Img) : (toRGB i).w = i.w := rfl

@[simp] theorem toRGB_h (i : Img) : (toRGB i).h = i.h := rfl

@[simp] theorem invert_w (i : Img) : (invert i).w = i.w := rfl

@[simp] theorem invert_h (i : Img) : (invert i).h = i.h := rfl

@[simp] theorem textureImg_w (w h : Nat) (n : Nat → Nat → Int) : (textureImg w h n).w = w := rfl

@[simp] theorem textureImg_h (w h : Nat) (n : Nat → Nat → Int) : (textureImg w h n).h = h := rfl

@[simp] theorem dodgeBlend_w (a b : Img) : (dodgeBlend a b).w = a.w := rfl

@[simp] theorem dodgeBlend_h (a b : Img) : (dodgeBlend a b).h = a.h := rfl

@[simp] theorem blend8515_w (a b : Img) : (blend8515 a b).w = a.w := rfl

@[simp] theorem blend8515_h (a b : Img) : (blend8515 a b).h = a.h := rfl

@[simp] theorem blend6535_w (a b : Img) : (blend6535 a b).w = a.w := rfl

@[simp] theorem blend6535_h (a b : Img) : (blend6535 a b).h = a.h := rfl

@[simp] theorem depthBlend_w (k : Nat) (a b : Img) : (depthBlend k a b).w = a.w := rfl

@[simp] theorem depthBlend_h (k : Nat) (a b : Img) : (depthBlend k a b).h = a.h := rfl

@[simp] theorem rgbThumbnail_w (m : Nat) (c : RgbImg) :
    (rgbThumbnail m c).w = (thumbDims m c.w c.h).1 := rfl

@[simp] theorem rgbThumbnail_h (m : Nat) (c : RgbImg) :
    (rgbThumbnail m c).h = (thumbDims m c.w c.h).2 := rfl

@[simp] theorem traceRender_w (g : Img) : (traceRender g).w = g.w := by
  simp [traceRender]

@[simp] theorem traceRender_h (g : Img) : (traceRender g).h = g.h := by
  simp [traceRender]

@[simp] theorem artisticRender_w (g l : Img) : (artisticRender g l).w = l.w := rfl

@[simp] theorem artisticRender_h (g l : Img) : (artisticRender g l).h = l.h := rfl

@[simp] theorem cleanRender_w (l : Img) : (cleanRender l).w = l.w := by
  simp [cleanRender]

@[simp] theorem cleanRender_h (l : Img) : (cleanRender l).h = l.h := by
  simp [cleanRender]

@[simp] theorem styleStage_fst_w (st dp : String) (g l : Img) (hw : l.w = g.w) :
    ((styleStage st dp g l).1).w = g.w := by
  simp only [styleStage]
  split
  case isTrue => exact traceRender_w g
  case isFalse =>
    split
    case isTrue => rw [artisticRender_w, hw]
    case isFalse => rw [cleanRender_w, hw]

@[simp] theorem styleStage_fst_h (st dp : String) (g l : Img) (hh : l.h = g.h) :
    ((styleStage st dp g l).1).h = g.h := by
  simp only [styleStage]
  split
  case isTrue => exact traceRender_h g
  case isFalse =>
    split
    case isTrue => rw [artisticRender_h, hh]
    case isFalse => rw [cleanRender_h, hh]

@[simp] theorem depthStage_w (g sk : Img) (d : String) : (depthStage g sk d).w = sk.w := by
  simp only [depthStage]
  split
  case isTrue => rw [autocontrast_w]; rfl
  case isFalse => rfl

@[simp] theorem depthStage_h (g sk : Img) (d : String) : (depthStage g sk d).h = sk.h := by
  simp only [depthStage]
  split
  case isTrue => rw [autocontrast_h]; rfl
  case isFalse => rfl

@[simp] theorem grayBase_w (img0 : RgbImg) :
    (grayBase img0).w = (thumbDims 1800 img0.w img0.h).1 := by
  simp [grayBase]

@[simp] theorem grayBase_h (img0 : RgbImg) :
    (grayBase img0).h = (thumbDims 1800 img0.w img0.h).2 := by
  simp [grayBase]

@[simp] theorem baseSketch_w (img0 : RgbImg) (noise : Nat → Nat → Int) :
    (baseSketch img0 noise).w = (grayBase img0).w := by
  simp [baseSketch]

@[simp] theorem baseSketch_h (img0 : RgbImg) (noise : Nat → Nat → Int) :
    (baseSketch img0 noise).h = (grayBase img0).h := by
  simp [baseSketch]

theorem finishStage_dims (z : String) (c : RgbImg) :
    (finishStage z c).w = (finishDims z c.w c.h).1 ∧
      (finishStage z c).h = (finishDims z c.w c.h).2 := by
  unfold finishStage finishDims
  cases sizeTarget z
  case none => exact ⟨rfl, rfl⟩
  case some t => exact ⟨rfl, rfl⟩

theorem renderOut_w (img0 : RgbImg) (noise : Nat → Nat → Int) (st dp z : String) :
    (renderOut img0 noise st dp z).w = (pipeDims z img0.w img0.h).1 := by
  have h1 : (toRGB (depthStage (grayBase img0)
      (styleStage st dp (grayBase img0) (grayscale (toRGB (baseSketch img0 noise)))).1
      (styleStage st dp (grayBase img0) (grayscale (toRGB (baseSketch img0 noise)))).2)).w
      = (thumbDims 1800 img0.w img0.h).1 := by
    simp
  have h2 : (toRGB (depthStage (grayBase img0)
      (styleStage st dp (grayBase img0) (grayscale (toRGB (baseSketch img0 noise)))).1
      (styleStage st dp (grayBase img0) (grayscale (toRGB (baseSketch img0 noise)))).2)).h
      = (thumbDims 1800 img0.w img0.h).2 := by
    simp
  calc (renderOut img0 noise st dp z).w
      = (finishDims z (toRGB (depthStage (grayBase img0)
          (styleStage st dp (grayBase img0) (grayscale (toRGB (baseSketch img0 noise)))).1
          (styleStage st dp (grayBase img0) (grayscale (toRGB (baseSketch img0 noise)))).2)).w
          (toRGB (depthStage (grayBase img0)
          (styleStage st dp (grayBase img0) (grayscale (toRGB (baseSketch img0 noise)))).1
          (styleStage st dp (grayBase img0) (grayscale (toRGB (baseSketch img0 noise)))).2)).h).1 :=
        (finishStage_dims z _).1
    _ = (pipeDims z img0.w img0.h).1 := by rw [h1, h2]; rfl

theorem renderOut_h (img0 : RgbImg) (noise : Nat → Nat → Int) (st dp z : String) :
    (renderOut img0 noise st dp z).h = (pipeDims z img0.w img0.h).2 := by
  have h1 : (toRGB (depthStage (grayBase img0)
      (styleStage st dp (grayBase img0) (grayscale (toRGB (baseSketch img0 noise)))).1
      (styleStage st dp (grayBase img0) (grayscale (toRGB (baseSketch img0 noise)))).2)).w
      = (thumbDims 1800 img0.w img0.h).1 := by
    simp
  have h2 : (toRGB (depthStage (grayBase img0)
      (styleStage st dp (grayBase img0) (grayscale (toRGB (baseSketch img0 noise)))).1
      (styleStage st dp (grayBase img0) (grayscale (toRGB (baseSketch img0 noise)))).2)).h
      = (thumbDims 1800 img0.w img0.h).2 := by
    simp
  calc (renderOut img0 noise st dp z).h
      = (finishDims z (toRGB (depthStage (grayBase img0)
          (styleStage st dp (grayBase img0) (grayscale (toRGB (baseSketch img0 noise)))).1
          (styleStage st dp (grayBase img0) (grayscale (toRGB (baseSketch img0 noise)))).2)).w
          (toRGB (depthStage (grayBase img0)
          (styleStage st dp (grayBase img0) (grayscale (toRGB (baseSketch img0 noise)))).1
          (styleStage st dp (grayBase img0) (grayscale (toRGB (baseSketch img0 noise)))).2)).h).2 :=
        (finishStage_dims z _).2
    _ = (pipeDims z img0.w img0.h).2 := by rw [h1, h2]; rfl

theorem roundAspectN_pos (num den : Nat) : 1 ≤ roundAspectN num den :=
  le_max_left 1 _

theorem roundAspectN_le {num den k : Nat} (hden : 1 ≤ den) (hk : 1 ≤ k)
    (h : num ≤ k * den) : roundAspectN num den ≤ k := by
  have hden0 : 0 < den := hden
  have hdm : num / den * den ≤ num := Nat.div_mul_le_self num den
  have hq : num / den ≤ k :=
    Nat.le_of_mul_le_mul_right (le_trans hdm h) hden0
  unfold roundAspectN
  split
  · exact max_le hk hq
  · rename_i hrem
    have hq2 : den * (num / den) + num % den = num := Nat.div_add_mod num den
    have hq' : num / den < k := by
      rcases Nat.lt_or_ge (num / den) k with hlt | hge
      · exact hlt
      · exfalso
        have hqe : num / den = k := le_antisymm hq hge
        rw [hqe] at hq2
        generalize hg : den * k = p at *
        have hkk : k * den = p := by rw [← hg]; ring
        rw [hkk] at h
        omega
    exact max_le hk (by omega)

theorem roundAspectN_eq_one {num den : Nat} (h : num < den) : roundAspectN num den = 1 := by
  have hq : num / den = 0 := Nat.div_eq_of_lt h
  unfold roundAspectN
  split <;> simp [hq]

theorem roundAspectN_bounds {num den : Nat} (hden : 1 ≤ den) :
    (2 * (roundAspectN num den) * den ≤ 2 * num + den ∧
      2 * num ≤ 2 * (roundAspectN num den) * den + den)
    ∨ (roundAspectN num den = 1 ∧ num < den) := by
  have hden0 : 0 < den := hden
  have hq2 : den * (num / den) + num % den = num := Nat.div_add_mod num den
  have hrlt : num % den < den := Nat.mod_lt num hden0
  by_cases hnd : num < den
  · exact Or.inr ⟨roundAspectN_eq_one hnd, hnd⟩
  · push_neg at hnd
    have hq1 : 1 ≤ num / den := (Nat.one_le_div_iff hden0).mpr hnd
    left
    unfold roundAspectN
    split
    · rename_i hrem
      rw [Nat.max_eq_right hq1]
      generalize num / den = q at *
      generalize num % den = r at *
      constructor <;> linarith
    · rename_i hrem
      push_neg at hrem
      have hmax : max 1 (num / den + 1) = num / den + 1 := Nat.max_eq_right (by omega)
      rw [hmax]
      generalize num / den = q at *
      generalize num % den = r at *
      constructor <;> linarith

theorem thumbDims_max_le {m w h : Nat} (hm : 1 ≤ m) (hw : 1 ≤ w) (hh : 1 ≤ h) :
    max (thumbDims m w h).1 (thumbDims m w h).2 ≤ m := by
  unfold thumbDims
  split
  · rename_i hc
    exact max_le hc.1 hc.2
  · split
    · rename_i hwh
      have hx : roundAspectN (m * w) h ≤ m :=
        roundAspectN_le hh hm (Nat.mul_le_mul_left m hwh)
      exact max_le hx le_rfl
    · rename_i hwh
      push_neg at hwh
      have hx : roundAspectN (m * h) w ≤ m :=
        roundAspectN_le hw hm (Nat.mul_le_mul_left m hwh.le)
      exact max_le le_rfl hx

theorem thumbDims_le {m w h : Nat} (hm : 1 ≤ m) (hw : 1 ≤ w) (hh : 1 ≤ h) :
    (thumbDims m w h).1 ≤ w ∧ (thumbDims m w h).2 ≤ h := by
  unfold thumbDims
  split
  · exact ⟨le_rfl, le_rfl⟩
  · rename_i hc
    rw [not_and_or] at hc
    push_neg at hc
    split
    · rename_i hwh
      have hmh : m < h := by omega
      have hx : roundAspectN (m * w) h ≤ w := by
        apply roundAspectN_le hh hw
        calc m * w ≤ h * w := Nat.mul_le_mul_right w hmh.le
        _ = w * h := Nat.mul_comm h w
      exact ⟨hx, by omega⟩
    · rename_i hwh
      push_neg at hwh
      have hmw : m < w := by omega
      have hx : roundAspectN (m * h) w ≤ h := by
        apply roundAspectN_le hw hh
        calc m * h ≤ w * h := Nat.mul_le_mul_right h hmw.le
        _ = h * w := Nat.mul_comm w h
      exact ⟨by omega, hx⟩

theorem thumbDims_pos {m w h : Nat} (hm : 1 ≤ m) (hw : 1 ≤ w) (hh : 1 ≤ h) :
    1 ≤ (thumbDims m w h).1 ∧ 1 ≤ (thumbDims m w h).2 := by
  unfold thumbDims
  split
  · exact ⟨hw, hh⟩
  · split
    · exact ⟨roundAspectN_pos _ _, hm⟩
    · exact ⟨hm, roundAspectN_pos _ _⟩

theorem thumbDims_orient {m w h : Nat} (hm : 1 ≤ m) (hw : 1 ≤ w) (hwh : w ≤ h) :
    (thumbDims m w h).1 ≤ (thumbDims m w h).2 := by
  unfold thumbDims
  split
  · exact hwh
  · exact roundAspectN_le (le_trans hw hwh) hm (Nat.mul_le_mul_left m hwh)

theorem thumbDims_aspect {m w h : Nat} (hm : 1 ≤ m) (hw : 1 ≤ w) (hwh : w ≤ h) :
    thumbDims m w h = (w, h) ∨
      ((thumbDims m w h).2 = m ∧ m < h ∧
        ((2 * (thumbDims m w h).1 * h ≤ 2 * (m * w) + h ∧
            2 * (m * w) ≤ 2 * (thumbDims m w h).1 * h + h)
          ∨ ((thumbDims m w h).1 = 1 ∧ m * w < h))) := by
  have hh : 1 ≤ h := le_trans hw hwh
  unfold thumbDims
  split
  · exact Or.inl rfl
  · rename_i hc
    rw [not_and_or] at hc
    push_neg at hc
    right
    have hmh : m < h := by omega
    refine ⟨rfl, hmh, ?_⟩
    simpa using @roundAspectN_bounds (m * w) h hh

theorem roundAspectN_self_mul {m den : Nat} (hm : 1 ≤ m) (hden : 1 ≤ den) :
    roundAspectN (m * den) den = m := by
  have hden0 : 0 < den := hden
  unfold roundAspectN
  rw [Nat.mul_mod_left m den, Nat.mul_div_cancel _ hden0]
  simp [Nat.max_eq_right hm]

theorem thumbDims_swap {m w h : Nat} (hm : 1 ≤ m) :
    thumbDims m h w = ((thumbDims m w h).2, (thumbDims m w h).1) := by
  unfold thumbDims
  by_cases hc : w ≤ m ∧ h ≤ m
  · rw [if_pos (And.intro hc.2 hc.1), if_pos hc]
  · have hc2 : ¬(h ≤ m ∧ w ≤ m) := fun hx => hc ⟨hx.2, hx.1⟩
    rw [if_neg hc2, if_neg hc]
    by_cases hwh : w ≤ h
    · by_cases hhw : h ≤ w
      · have heq : w = h := le_antisymm hwh hhw
        subst heq
        have hw1 : 1 ≤ w := by
          by_contra hx
          push_neg at hx
          exact hc ⟨by omega, by omega⟩
        rw [roundAspectN_self_mul hm hw1]
        split <;> rfl
      · push_neg at hhw
        rw [if_neg (by omega : ¬ h ≤ w), if_pos hwh]
    · push_neg at hwh
      rw [if_pos hwh.le, if_neg (by omega : ¬ w ≤ h)]

theorem sizeTarget_bound {z : String} {t : Nat} (hz : sizeTarget z = some t) :
    1 ≤ t ∧ t ≤ 1600 := by
  unfold sizeTarget at hz
  split at hz
  · cases hz; omega
  · split at hz
    · cases hz; omega
    · split at hz
      · cases hz; omega
      · split at hz
        · cases hz; omega
        · cases hz

theorem thumbDims_one_small {t y : Nat} (ht : 1 ≤ t) (hty : t < y) :
    thumbDims t 1 y = (1, t) := by
  unfold thumbDims
  rw [if_neg (by omega : ¬(1 ≤ t ∧ y ≤ t)), if_pos (by omega : 1 ≤ y)]
  rw [Nat.mul_one, roundAspectN_eq_one hty]

theorem pipeDims_max_le {z : String} {w h : Nat} (hw : 1 ≤ w) (hh : 1 ≤ h) :
    max (pipeDims z w h).1 (pipeDims z w h).2 ≤ sizeCap z := by
  have h1800 : (1:Nat) ≤ 1800 := by omega
  have hmax1 := thumbDims_max_le (m := 1800) h1800 hw hh
  have hpos1 := thumbDims_pos (m := 1800) h1800 hw hh
  unfold pipeDims sizeCap finishDims
  cases hz : sizeTarget z
  case none => exact hmax1
  case some t =>
    obtain ⟨ht1, ht2⟩ := sizeTarget_bound hz
    exact thumbDims_max_le ht1 hpos1.1 hpos1.2

theorem pipeDims_le {z : String} {w h : Nat} (hw : 1 ≤ w) (hh : 1 ≤ h) :
    (pipeDims z w h).1 ≤ w ∧ (pipeDims z w h).2 ≤ h := by
  have h1800 : (1:Nat) ≤ 1800 := by omega
  have hle1 := thumbDims_le (m := 1800) h1800 hw hh
  have hpos1 := thumbDims_pos (m := 1800) h1800 hw hh
  unfold pipeDims finishDims
  cases hz : sizeTarget z
  case none => exact hle1
  case some t =>
    obtain ⟨ht1, ht2⟩ := sizeTarget_bound hz
    have hle2 := thumbDims_le ht1 hpos1.1 hpos1.2
    exact ⟨le_trans hle2.1 hle1.1, le_trans hle2.2 hle1.2⟩

theorem pipeDims_pos {z : String} {w h : Nat} (hw : 1 ≤ w) (hh : 1 ≤ h) :
    1 ≤ (pipeDims z w h).1 ∧ 1 ≤ (pipeDims z w h).2 := by
  have h1800 : (1:Nat) ≤ 1800 := by omega
  have hpos1 := thumbDims_pos (m := 1800) h1800 hw hh
  unfold pipeDims finishDims
  cases hz : sizeTarget z
  case none => exact hpos1
  case some t =>
    obtain ⟨ht1, ht2⟩ := sizeTarget_bound hz
    exact thumbDims_pos ht1 hpos1.1 hpos1.2

theorem pipeDims_orient {z : String} {w h : Nat} (hw : 1 ≤ w) (hwh : w ≤ h) :
    (pipeDims z w h).1 ≤ (pipeDims z w h).2 := by
  have h1800 : (1:Nat) ≤ 1800 := by omega
  have hh : 1 ≤ h := le_trans hw hwh
  have hpos1 := thumbDims_pos (m := 1800) h1800 hw hh
  have hor1 := thumbDims_orient h1800 hw hwh
  unfold pipeDims finishDims
  cases hz : sizeTarget z
  case none => exact hor1
  case some t =>
    obtain ⟨ht1, ht2⟩ := sizeTarget_bound hz
    exact thumbDims_orient ht1 hpos1.1 hor1

theorem pipeDims_swap {z : String} (w h : Nat) :
    pipeDims z h w = ((pipeDims z w h).2, (pipeDims z w h).1) := by
  have h1800 : (1:Nat) ≤ 1800 := by omega
  unfold pipeDims finishDims
  rw [thumbDims_swap h1800]
  cases hz : sizeTarget z
  case none => rfl
  case some t =>
    obtain ⟨ht1, ht2⟩ := sizeTarget_bound hz
    exact thumbDims_swap ht1

theorem thumbDims_aspect_div {m w h : Nat} (hm : 1 ≤ m) (hw : 1 ≤ w) (hwh : w ≤ h) :
    (thumbDims m w h).1 * h ≤ (thumbDims m w h).2 * w + h ∧
      (thumbDims m w h).2 * w ≤ (thumbDims m w h).1 * h + h := by
  have hF := thumbDims_aspect hm hw hwh
  rw [Prod.ext_iff] at hF
  dsimp only at hF
  rcases hF with ⟨hN1, hN2⟩ | ⟨ha2, hmh, hG⟩
  · rw [hN1, hN2]
    constructor <;> nlinarith [Nat.mul_comm w h]
  · rw [ha2]
    rcases hG with ⟨g1, g2⟩ | ⟨g11, g12⟩
    · constructor <;> linarith
    · rw [g11]
      constructor <;> nlinarith [Nat.zero_le (m * w)]

set_option maxHeartbeats 1000000 in
theorem pipeDims_aspect_main {z : String} {w h : Nat} (hw : 1 ≤ w) (hwh : w ≤ h) :
    (pipeDims z w h).1 * h ≤ (pipeDims z w h).2 * w + h ∧
      (pipeDims z w h).2 * w ≤ (pipeDims z w h).1 * h + h := by
  have h1800 : (1:Nat) ≤ 1800 := by omega
  have hh : 1 ≤ h := le_trans hw hwh
  have hpos1 := thumbDims_pos (m := 1800) h1800 hw hh
  have hor1 := thumbDims_orient h1800 hw hwh
  have hF := thumbDims_aspect (m := 1800) h1800 hw hwh
  have hD1 := thumbDims_aspect_div (m := 1800) h1800 hw hwh
  rw [Prod.ext_iff] at hF
  dsimp only at hF
  unfold pipeDims finishDims
  cases hz : sizeTarget z
  case none => exact hD1
  case some t =>
    obtain ⟨ht1, ht2⟩ := sizeTarget_bound hz
    have hF2 := thumbDims_aspect ht1 hpos1.1 hor1
    rw [Prod.ext_iff] at hF2
    dsimp only at hF2
    show (thumbDims t (thumbDims 1800 w h).1 (thumbDims 1800 w h).2).1 * h ≤
        (thumbDims t (thumbDims 1800 w h).1 (thumbDims 1800 w h).2).2 * w + h ∧
      (thumbDims t (thumbDims 1800 w h).1 (thumbDims 1800 w h).2).2 * w ≤
        (thumbDims t (thumbDims 1800 w h).1 (thumbDims 1800 w h).2).1 * h + h
    rcases hF2 with ⟨hN1, hN2⟩ | ⟨hbt, htlt2, hG2⟩
    · rw [hN1, hN2]
      exact hD1
    · rw [hbt]
      rcases hF with ⟨hw1, hh1⟩ | ⟨hy18, hmh, hG⟩
      · -- stage 1 no-op: its projections are w and h
        rw [hw1, hh1] at hG2 ⊢
        generalize (thumbDims t w h).1 = b1 at hG2 ⊢
        rcases hG2 with ⟨c1, c2⟩ | ⟨cb1, cblt⟩
        · constructor <;> nlinarith [Nat.zero_le (t * w)]
        · subst cb1
          constructor <;> nlinarith [Nat.zero_le (t * w)]
      · -- stage 1 resized: its long edge is 1800
        rw [hy18] at hG2 htlt2 ⊢
        rcases hG with ⟨g1, g2⟩ | ⟨g11, g12⟩
        · generalize hgx : (thumbDims 1800 w h).1 = x1 at g1 g2 hG2 hor1 hpos1 ⊢
          generalize (thumbDims t x1 1800).1 = b1 at hG2 ⊢
          rcases hG2 with ⟨c1, c2⟩ | ⟨cb1, cblt⟩
          · have e1 : 2 * b1 * 1800 * h ≤ (2 * (t * x1) + 1800) * h :=
              Nat.mul_le_mul_right h c1
            have e2 : t * (2 * x1 * h) ≤ t * (2 * (1800 * w) + h) :=
              Nat.mul_le_mul_left t g1
            have e3 : t * (2 * (1800 * w)) ≤ t * (2 * x1 * h + h) :=
              Nat.mul_le_mul_left t g2
            have e4 : 2 * (t * x1) * h ≤ (2 * b1 * 1800 + 1800) * h :=
              Nat.mul_le_mul_right h c2
            have e5 : t * h ≤ 1600 * h := Nat.mul_le_mul_right h ht2
            constructor <;> nlinarith
          · subst cb1
            have e2 : t * (2 * (1800 * w)) ≤ t * (2 * x1 * h + h) :=
              Nat.mul_le_mul_left t g2
            have e5 : t * h ≤ 1600 * h := Nat.mul_le_mul_right h ht2
            have e6 : 2 * (t * x1) * h ≤ 2 * 1799 * h :=
              Nat.mul_le_mul_right h (by omega)
            constructor <;> nlinarith [Nat.zero_le (t * w)]
        · -- stage 1 clamped the short edge to 1
          rw [g11, thumbDims_one_small ht1 htlt2]
          dsimp only
          have e7 : t * w ≤ 1600 * w := Nat.mul_le_mul_right w ht2
          constructor <;> nlinarith [Nat.zero_le (t * w)]

theorem pipeDims_aspect {z : String} {w h : Nat} (hw : 1 ≤ w) (hh : 1 ≤ h) :
    |((min (pipeDims z w h).1 (pipeDims z w h).2 * max w h : Nat) : Int)
        - ((max (pipeDims z w h).1 (pipeDims z w h).2 * min w h : Nat) : Int)|
      ≤ ((max w h : Nat) : Int) := by
  rcases le_total w h with hwh | hhw
  · have hor := pipeDims_orient (z := z) hw hwh
    have hasp := pipeDims_aspect_main (z := z) hw hwh
    rw [min_eq_left hor, max_eq_right hor, min_eq_left hwh, max_eq_right hwh, abs_le]
    have h1 := hasp.1
    have h2 := hasp.2
    constructor
    · push_cast
      push_cast at h2
      linarith
    · push_cast
      push_cast at h1
      linarith
  · have hor := pipeDims_orient (z := z) hh hhw
    have hasp := pipeDims_aspect_main (z := z) hh hhw
    have hswap := pipeDims_swap (z := z) h w
    rw [hswap]
    dsimp only
    rw [min_eq_right hor, max_eq_left hor, min_eq_right hhw, max_eq_left hhw, abs_le]
    have h1 := hasp.1
    have h2 := hasp.2
    constructor
    · push_cast
      push_cast at h2
      linarith
    · push_cast
      push_cast at h1
      linarith

theorem styleStage_trace (d : String) (g l : Img) :
    styleStage "trace" d g l = (traceRender g, "none") := by
  simp [styleStage]

theorem styleStage_artistic (d : String) (g l : Img) :
    styleStage "artistic" d g l = (artisticRender g l, d) := by
  simp [styleStage]

theorem styleStage_other (st d : String) (g l : Img)
    (h1 : st ≠ "trace") (h2 : st ≠ "artistic") :
    styleStage st d g l = (cleanRender l, d) := by
  simp [styleStage, h1, h2]

theorem depthStage_none (g sk : Img) : depthStage g sk "none" = sk := by
  simp [depthStage, shadeStrength]

theorem depthStage_congr (g sk : Img) (d d' : String)
    (h : shadeStrength d = shadeStrength d') :
    depthStage g sk d = depthStage g sk d' := by
  simp only [depthStage, h]

theorem shadeStrength_default (d : String) (h1 : d ≠ "none") (h2 : d ≠ "light")
    (h3 : d ≠ "medium") (h4 : d ≠ "deep") : shadeStrength d = 38 := by
  simp [shadeStrength, h1, h2, h3, h4]

/-- A 1 × 1 pure-white input raster, used to instantiate the universally
quantified claim theorems at a concrete input. -/
def whitePix1 : RgbImg := ⟨1, 1, [255], [255], [255]⟩

/-- One concrete value of the ambient grain-noise draws: every draw 128 (the
mean of the source's normal distribution). -/
def noiseA : Nat → Nat → Int := fun _ _ => 128

/-- A second concrete value of the ambient grain-noise draws: every draw 60
(well within the reach of the source's normal distribution). -/
def noiseB : Nat → Nat → Int := fun _ _ => 60

/-- C2: for every valid input image and every requested output size, the
rendered output's long edge is at most the requested size cap (1800 for
"original" and unrecognized codes, which skip the final resize), neither
output dimension exceeds the corresponding input dimension (the resize never
upscales), and the output aspect ratio equals the input aspect ratio within
±1 pixel of rounding: the output short edge times the input long edge is
within one input-long-edge of the output long edge times the input short edge,
i.e. `|short' - long' * short/long| ≤ 1` in exact arithmetic. -/
theorem C2_output_dims (img0 : RgbImg) (noise : Nat → Nat → Int) (st dp z : String)
    (hw : 1 ≤ img0.w) (hh : 1 ≤ img0.h) :
    max (renderOut img0 noise st dp z).w (renderOut img0 noise st dp z).h ≤ sizeCap z ∧
      (renderOut img0 noise st dp z).w ≤ img0.w ∧
      (renderOut img0 noise st dp z).h ≤ img0.h ∧
      |((min (renderOut img0 noise st dp z).w (renderOut img0 noise st dp z).h
            * max img0.w img0.h : Nat) : Int)
          - ((max (renderOut img0 noise st dp z).w (renderOut img0 noise st dp z).h
            * min img0.w img0.h : Nat) : Int)|
        ≤ ((max img0.w img0.h : Nat) : Int) := by
  rw [renderOut_w, renderOut_h]
  exact ⟨pipeDims_max_le hw hh, (pipeDims_le hw hh).1, (pipeDims_le hw hh).2,
    pipeDims_aspect hw hh⟩

theorem C2_output_dims_witness :
    ((1 ≤ whitePix1.w) ∧ (1 ≤ whitePix1.h)) ∧
      (max (renderOut whitePix1 noiseA "clean" "sm" "orig").w
          (renderOut whitePix1 noiseA "clean" "sm" "orig").h ≤ sizeCap "orig" ∧
        (renderOut whitePix1 noiseA "clean" "sm" "orig").w ≤ whitePix1.w ∧
        (renderOut whitePix1 noiseA "clean" "sm" "orig").h ≤ whitePix1.h ∧
        |((min (renderOut whitePix1 noiseA "clean" "sm" "orig").w
              (renderOut whitePix1 noiseA "clean" "sm" "orig").h
              * max whitePix1.w whitePix1.h : Nat) : Int)
            - ((max (renderOut whitePix1 noiseA "clean" "sm" "orig").w
              (renderOut whitePix1 noiseA "clean" "sm" "orig").h
              * min whitePix1.w whitePix1.h : Nat) : Int)|
          ≤ ((max whitePix1.w whitePix1.h : Nat) : Int)) :=
  ⟨⟨by decide, by decide⟩,
    C2_output_dims whitePix1 noiseA "clean" "sm" "orig" (by decide) (by decide)⟩

/-- C3: for every input image, noise field and output size, rendering with
style "trace" produces an identical result whatever depth is requested: the
trace branch of the style dispatch overrides the depth selector with "none"
(source line 67), so the depth stage is skipped. -/
theorem C3_trace_ignores_depth (img0 : RgbImg) (noise : Nat → Nat → Int)
    (d d' z : String) :
    pencil_sketch (some img0) noise "trace" d z
      = pencil_sketch (some img0) noise "trace" d' z := by
  simp only [pencil_sketch, pencil_core, styleStage_trace]

/-- C8: undecodable input (modelled by `none`, covering corrupt and zero-byte
inputs) makes the pipeline fail with `DecodeError` and produce no output,
while every successfully decoded image makes every downstream stage succeed:
the pipeline returns `.ok` of the total function `pencil_core`. -/
theorem C8_decode_error (noise : Nat → Nat → Int) (st dp z : String) :
    (pencil_sketch none noise st dp z = .error .decodeError) ∧
      (∀ img0 : RgbImg, pencil_sketch (some img0) noise st dp z
        = .ok (pencil_core img0 noise st dp z)) :=
  ⟨rfl, fun _ => rfl⟩

/-- C10: every style selector other than "trace" and "artistic" takes the
final `else` branch of the style dispatch (source line 77), so the pipeline
renders exactly as for style "clean"; there is no rejection branch. -/
theorem C10_unknown_style_is_clean (st : String) (h1 : st ≠ "trace")
    (h2 : st ≠ "artistic") (img0 : RgbImg) (noise : Nat → Nat → Int)
    (dp z : String) :
    pencil_sketch (some img0) noise st dp z
      = pencil_sketch (some img0) noise "clean" dp z := by
  simp only [pencil_sketch, pencil_core,
    styleStage_other st dp _ _ h1 h2,
    styleStage_other "clean" dp _ _ (by decide) (by decide)]

theorem C10_unknown_style_is_clean_witness :
    (("sketchy" : String) ≠ "trace" ∧ ("sketchy" : String) ≠ "artistic") ∧
      pencil_sketch (some whitePix1) noiseA "sketchy" "medium" "orig"
        = pencil_sketch (some whitePix1) noiseA "clean" "medium" "orig" :=
  ⟨⟨by decide, by decide⟩,
    C10_unknown_style_is_clean "sketchy" (by decide) (by decide) whitePix1 noiseA
      "medium" "orig"⟩

/-- C9: every depth selector outside the four documented values falls back to
the dictionary default 0.38 (source line 83), so the pipeline does not fail,
the depth stage is not skipped (the strength is positive, the same as for
"medium"), and the output is identical to the "medium" output for every
style and size. -/
theorem C9_unknown_depth_is_medium (dp : String)
    (h : dp ∉ (["none", "light", "medium", "deep"] : List String)) :
    shadeStrength dp = 38 ∧ 0 < shadeStrength dp ∧
      ∀ (img0 : RgbImg) (noise : Nat → Nat → Int) (st z : String),
        pencil_sketch (some img0) noise st dp z
          = pencil_sketch (some img0) noise st "medium" z := by
  have h1 : dp ≠ "none" := by intro he; exact h (by simp [he])
  have h2 : dp ≠ "light" := by intro he; exact h (by simp [he])
  have h3 : dp ≠ "medium" := by intro he; exact h (by simp [he])
  have h4 : dp ≠ "deep" := by intro he; exact h (by simp [he])
  have hs : shadeStrength dp = 38 := shadeStrength_default dp h1 h2 h3 h4
  refine ⟨hs, by omega, ?_⟩
  intro img0 noise st z
  have hd : ∀ g sk : Img, depthStage g sk dp = depthStage g sk "medium" := by
    intro g sk
    refine depthStage_congr g sk dp "medium" ?_
    rw [hs]
    rfl
  simp only [pencil_sketch, pencil_core]
  by_cases hst : st = "trace"
  · subst hst
    rw [styleStage_trace, styleStage_trace]
  · by_cases hsa : st = "artistic"
    · subst hsa
      rw [styleStage_artistic, styleStage_artistic]
      rw [hd]
    · rw [styleStage_other st dp _ _ hst hsa, styleStage_other st "medium" _ _ hst hsa]
      rw [hd]

theorem C9_unknown_depth_is_medium_witness :
    (("extra" : String) ∉ (["none", "light", "medium", "deep"] : List String)) ∧
      (shadeStrength "extra" = 38 ∧ 0 < shadeStrength "extra" ∧
        pencil_sketch (some whitePix1) noiseA "clean" "extra" "orig"
          = pencil_sketch (some whitePix1) noiseA "clean" "medium" "orig") :=
  ⟨by decide,
    ⟨(C9_unknown_depth_is_medium "extra" (by decide)).1,
      (C9_unknown_depth_is_medium "extra" (by decide)).2.1,
      (C9_unknown_depth_is_medium "extra" (by decide)).2.2 whitePix1 noiseA "clean" "orig"⟩⟩

set_option maxRecDepth 8000

theorem ev_grayBase : grayBase whitePix1 = ⟨1, 1, [255]⟩ := by decide

theorem ev_inv255 : invert (⟨1, 1, [255]⟩ : Img) = ⟨1, 1, [0]⟩ := by decide

theorem ev_blur22_0 : gaussianBlur 22 (⟨1, 1, [0]⟩ : Img) = ⟨1, 1, [0]⟩ := by decide

theorem ev_dodge : dodgeBlend ⟨1, 1, [255]⟩ ⟨1, 1, [0]⟩ = ⟨1, 1, [254]⟩ := by decide

theorem ev_usm180 : unsharpMask 2 180 2 (⟨1, 1, [254]⟩ : Img) = ⟨1, 1, [254]⟩ := by decide

theorem ev_texA : textureImg 1 1 noiseA = ⟨1, 1, [128]⟩ := by decide

theorem ev_texB : textureImg 1 1 noiseB = ⟨1, 1, [60]⟩ := by decide

theorem ev_blur2_128 : gaussianBlur 2 (⟨1, 1, [128]⟩ : Img) = ⟨1, 1, [128]⟩ := by decide

theorem ev_blur2_60 : gaussianBlur 2 (⟨1, 1, [60]⟩ : Img) = ⟨1, 1, [60]⟩ := by decide

theorem ev_blendA : blend8515 ⟨1, 1, [254]⟩ ⟨1, 1, [128]⟩ = ⟨1, 1, [235]⟩ := by decide

theorem ev_blendB : blend8515 ⟨1, 1, [254]⟩ ⟨1, 1, [60]⟩ = ⟨1, 1, [224]⟩ := by decide

theorem ev_baseSketchA : baseSketch whitePix1 noiseA = ⟨1, 1, [235]⟩ := by
  simp only [baseSketch, ev_grayBase, ev_inv255, ev_blur22_0, ev_dodge, ev_usm180]
  simp only [ev_texA, ev_blur2_128, ev_blendA]

theorem ev_baseSketchB : baseSketch whitePix1 noiseB = ⟨1, 1, [224]⟩ := by
  simp only [baseSketch, ev_grayBase, ev_inv255, ev_blur22_0, ev_dodge, ev_usm180]
  simp only [ev_texB, ev_blur2_60, ev_blendB]

theorem ev_lum235 : grayscale (⟨1, 1, [235], [235], [235]⟩ : RgbImg) = ⟨1, 1, [235]⟩ := by
  decide

theorem ev_lum224 : grayscale (⟨1, 1, [224], [224], [224]⟩ : RgbImg) = ⟨1, 1, [224]⟩ := by
  decide

theorem ev_clean235 : cleanRender (⟨1, 1, [235]⟩ : Img) = ⟨1, 1, [235]⟩ := by decide

theorem ev_clean224 : cleanRender (⟨1, 1, [224]⟩ : Img) = ⟨1, 1, [224]⟩ := by decide

theorem ev_tone : autocontrast 200 (gaussianBlur 4 (⟨1, 1, [255]⟩ : Img)) = ⟨1, 1, [255]⟩ := by
  decide

theorem ev_db22 : depthBlend 22 ⟨1, 1, [235]⟩ ⟨1, 1, [255]⟩ = ⟨1, 1, [255]⟩ := by decide

theorem ev_db38 : depthBlend 38 ⟨1, 1, [235]⟩ ⟨1, 1, [255]⟩ = ⟨1, 1, [255]⟩ := by decide

theorem ev_ac100_255 : autocontrast 100 (⟨1, 1, [255]⟩ : Img) = ⟨1, 1, [255]⟩ := by decide

theorem styleStage_clean (d : String) (g l : Img) :
    styleStage "clean" d g l = (cleanRender l, d) :=
  styleStage_other "clean" d g l (by decide) (by decide)

theorem depthStage_light (g sk : Img) :
    depthStage g sk "light"
      = autocontrast 100 (depthBlend 22 sk (autocontrast 200 (gaussianBlur 4 g))) := by
  simp [depthStage, shadeStrength]

theorem depthStage_medium (g sk : Img) :
    depthStage g sk "medium"
      = autocontrast 100 (depthBlend 38 sk (autocontrast 200 (gaussianBlur 4 g))) := by
  simp [depthStage, shadeStrength]

theorem finishStage_orig (c : RgbImg) : finishStage "orig" c = c := by
  simp [finishStage, sizeTarget]

theorem ev_run_none_A :
    pencil_core whitePix1 noiseA "clean" "none" "orig" = ⟨1, 1, [235], [235], [235]⟩ := by
  simp only [pencil_core, ev_grayBase, ev_baseSketchA, toRGB, ev_lum235, styleStage_clean,
    ev_clean235, depthStage_none, finishStage_orig]

theorem ev_run_none_B :
    pencil_core whitePix1 noiseB "clean" "none" "orig" = ⟨1, 1, [224], [224], [224]⟩ := by
  simp only [pencil_core, ev_grayBase, ev_baseSketchB, toRGB, ev_lum224, styleStage_clean,
    ev_clean224, depthStage_none, finishStage_orig]

theorem ev_run_light_A :
    pencil_core whitePix1 noiseA "clean" "light" "orig" = ⟨1, 1, [255], [255], [255]⟩ := by
  simp only [pencil_core, ev_grayBase, ev_baseSketchA, toRGB, ev_lum235, styleStage_clean,
    ev_clean235, depthStage_light, ev_tone, ev_db22, ev_ac100_255, finishStage_orig]

theorem ev_run_medium_A :
    pencil_core whitePix1 noiseA "clean" "medium" "orig" = ⟨1, 1, [255], [255], [255]⟩ := by
  simp only [pencil_core, ev_grayBase, ev_baseSketchA, toRGB, ev_lum235, styleStage_clean,
    ev_clean235, depthStage_medium, ev_tone, ev_db38, ev_ac100_255, finishStage_orig]

/-- C1 (amended): the pipeline signature carries no seed; the grain noise
comes from the ambient global random state, modelled by the explicit `noise`
argument.  Holding that noise field fixed along with the decoded input and
the style/depth/size parameters, the pipeline is deterministic: equal inputs
give byte-identical output. -/
theorem C1_deterministic_given_noise (dec dec' : Option RgbImg)
    (noise noise' : Nat → Nat → Int) (st st' dp dp' z z' : String)
    (h0 : dec = dec') (h1 : noise = noise') (h2 : st = st') (h3 : dp = dp')
    (h4 : z = z') :
    pencil_sketch dec noise st dp z = pencil_sketch dec' noise' st' dp' z' := by
  subst h0
  subst h1
  subst h2
  subst h3
  subst h4
  rfl

theorem C1_deterministic_given_noise_witness :
    ((some whitePix1 : Option RgbImg) = some whitePix1) ∧
      pencil_sketch (some whitePix1) noiseA "clean" "none" "orig"
        = pencil_sketch (some whitePix1) noiseA "clean" "none" "orig" :=
  ⟨rfl, C1_deterministic_given_noise (some whitePix1) (some whitePix1) noiseA noiseA
    "clean" "clean" "none" "none" "orig" "orig" rfl rfl rfl rfl rfl⟩

/-- C1 (counterexample): two invocations with byte-identical decoded input and
identical style/depth/size parameters, differing only in the ambient noise
draws (which no exposed parameter fixes, as `_pencil_sketch` takes no seed),
produce different output bytes — so the claim that two calls on identical
input and parameters are byte-identical is false of the code. -/
theorem C1_counterexample :
    pencil_sketch (some whitePix1) noiseA "clean" "none" "orig"
      ≠ pencil_sketch (some whitePix1) noiseB "clean" "none" "orig" := by
  simp only [pencil_sketch, ev_run_none_A, ev_run_none_B]
  decide

/-- C4 (counterexample): on the uniform white input the depth blend saturates
at 255 for every positive depth, so the outputs for depth "light" and depth
"medium" coincide and their mean absolute differences from the depth-"none"
output are equal — increasing the depth selector does not strictly increase
the mean absolute difference. -/
theorem C4_counterexample :
    renderOut whitePix1 noiseA "clean" "light" "orig"
        = renderOut whitePix1 noiseA "clean" "medium" "orig" ∧
      meanAbsDiff (renderOut whitePix1 noiseA "clean" "light" "orig")
          (renderOut whitePix1 noiseA "clean" "none" "orig")
        = meanAbsDiff (renderOut whitePix1 noiseA "clean" "medium" "orig")
          (renderOut whitePix1 noiseA "clean" "none" "orig") := by
  have he : renderOut whitePix1 noiseA "clean" "light" "orig"
      = renderOut whitePix1 noiseA "clean" "medium" "orig" := by
    simp only [renderOut, ev_run_light_A, ev_run_medium_A]
  exact ⟨he, by rw [he]⟩

/-- C4 (amended): the depth-strength map is strictly increasing along
none < light < medium < deep, and before clipping and quantization the depth
blend moves every pixel away from its depth-none value by `s · |tone - 0.35
· styled|`, strictly increasing in the strength at every pixel where
`tone ≠ 0.35 · styled`; after clipping to [0, 255] the increase need not
survive (see the counterexample, where all positive depths saturate). -/
theorem C4_depth_blend_monotone :
    (shadeStrength "none" < shadeStrength "light" ∧
      shadeStrength "light" < shadeStrength "medium" ∧
      shadeStrength "medium" < shadeStrength "deep") ∧
    ∀ (k k' a t : Nat), k < k' → 20 * t ≠ 7 * a →
      |depthBlendQ k a t - (a : ℚ)| < |depthBlendQ k' a t - (a : ℚ)| := by
  refine ⟨⟨by decide, by decide, by decide⟩, ?_⟩
  intro k k' a t hk hne
  have hfact : ∀ j : Nat, depthBlendQ j a t - (a : ℚ)
      = ((j : ℚ) / 100) * ((t : ℚ) - (7 / 20) * (a : ℚ)) := by
    intro j
    unfold depthBlendQ
    ring
  rw [hfact, hfact, abs_mul, abs_mul]
  have hx : (0 : ℚ) < |(t : ℚ) - (7 / 20) * (a : ℚ)| := by
    rw [abs_pos]
    intro hcon
    apply hne
    have h20 : (20 : ℚ) * t = 7 * a := by linarith
    exact_mod_cast h20
  apply mul_lt_mul_of_pos_right ?_ hx
  rw [abs_of_nonneg (by positivity), abs_of_nonneg (by positivity)]
  have hkq : (k : ℚ) < (k' : ℚ) := by exact_mod_cast hk
  linarith

theorem C4_depth_blend_monotone_witness :
    (22 < 38 ∧ 20 * 255 ≠ 7 * 0) ∧
      |depthBlendQ 22 0 255 - ((0 : Nat) : ℚ)| < |depthBlendQ 38 0 255 - ((0 : Nat) : ℚ)| :=
  ⟨⟨by decide, by decide⟩, C4_depth_blend_monotone.2 22 38 0 255 (by decide) (by decide)⟩

theorem getClamped_le {i : Img} (hpx : ∀ v ∈ i.px, v ≤ 255) (y x : Nat) :
    getClamped i y x ≤ 255 :=
  getD_le_of_forall_le hpx _

theorem invert_px_le (i : Img) : ∀ v ∈ (invert i).px, v ≤ 255 := by
  intro v hv
  simp only [invert, List.mem_map] at hv
  obtain ⟨x, _, hvv⟩ := hv
  omega

theorem windowSum_le {r : Nat} {i : Img} (hpx : ∀ v ∈ i.px, v ≤ 255) (y x : Nat) :
    windowSum r i y x ≤ 255 * ((2 * r + 1) * (2 * r + 1)) := by
  unfold windowSum
  have hrow : ∀ dy : Nat,
      ((List.range (2 * r + 1)).map
        (fun dx => getClamped i (y + dy - r) (x + dx - r))).sum ≤ (2 * r + 1) * 255 := by
    intro dy
    have hb := List.sum_le_card_nsmul
      ((List.range (2 * r + 1)).map (fun dx => getClamped i (y + dy - r) (x + dx - r))) 255 ?_
    · simpa [List.length_map, List.length_range, smul_eq_mul] using hb
    · intro v hv
      simp only [List.mem_map] at hv
      obtain ⟨dx, _, hvv⟩ := hv
      rw [← hvv]
      exact getClamped_le hpx _ _
  have hcol := List.sum_le_card_nsmul
    ((List.range (2 * r + 1)).map
      (fun dy => ((List.range (2 * r + 1)).map
        (fun dx => getClamped i (y + dy - r) (x + dx - r))).sum)) ((2 * r + 1) * 255) ?_
  · have hlen : ((List.range (2 * r + 1)).map
        (fun dy => ((List.range (2 * r + 1)).map
          (fun dx => getClamped i (y + dy - r) (x + dx - r))).sum)).length = 2 * r + 1 := by
      simp [List.length_map, List.length_range]
    rw [hlen, smul_eq_mul] at hcol
    calc ((List.range (2 * r + 1)).map
        (fun dy => ((List.range (2 * r + 1)).map
          (fun dx => getClamped i (y + dy - r) (x + dx - r))).sum)).sum
        ≤ (2 * r + 1) * ((2 * r + 1) * 255) := hcol
      _ = 255 * ((2 * r + 1) * (2 * r + 1)) := by ring
  · intro v hv
    simp only [List.mem_map] at hv
    obtain ⟨dy, _, hvv⟩ := hv
    rw [← hvv]
    exact hrow dy

theorem gaussianBlur_px_le {r : Nat} {i : Img} (hpx : ∀ v ∈ i.px, v ≤ 255) :
    ∀ v ∈ (gaussianBlur r i).px, v ≤ 255 := by
  intro v hv
  simp only [gaussianBlur, mkImg, List.mem_map] at hv
  obtain ⟨k, _, hvv⟩ := hv
  rw [← hvv]
  have hS := windowSum_le (r := r) hpx (k / i.w) (k % i.w)
  have hk2pos : 0 < (2 * r + 1) * (2 * r + 1) := Nat.mul_pos (by omega) (by omega)
  have hle : 2 * windowSum r i (k / i.w) (k % i.w) + (2 * r + 1) * (2 * r + 1)
      ≤ 511 * ((2 * r + 1) * (2 * r + 1)) := by linarith
  calc (2 * windowSum r i (k / i.w) (k % i.w) + (2 * r + 1) * (2 * r + 1))
        / (2 * ((2 * r + 1) * (2 * r + 1)))
      ≤ 511 * ((2 * r + 1) * (2 * r + 1)) / (2 * ((2 * r + 1) * (2 * r + 1))) :=
        Nat.div_le_div_right hle
    _ = 255 := by
        rw [show 511 * ((2 * r + 1) * (2 * r + 1))
            = (2 * r + 1) * (2 * r + 1) + (2 * ((2 * r + 1) * (2 * r + 1))) * 255 by ring]
        rw [Nat.add_mul_div_left _ _ (by omega : 0 < 2 * ((2 * r + 1) * (2 * r + 1)))]
        rw [Nat.div_eq_of_lt (by omega : (2 * r + 1) * (2 * r + 1)
          < 2 * ((2 * r + 1) * (2 * r + 1)))]

theorem byteFloorDiv_eq {N D : Nat} (hD : 1 ≤ D) :
    min 255 (N / D) = Int.toNat ⌊min 255 (max 0 ((N : ℚ) / (D : ℚ)))⌋ := by
  have hD0 : (0 : ℚ) < (D : ℚ) := by exact_mod_cast hD
  have hq0 : (0 : ℚ) ≤ (N : ℚ) / (D : ℚ) := by positivity
  rw [max_eq_right hq0]
  rcases le_total ((N : ℚ) / (D : ℚ)) 255 with hle | hge
  · have hnd : N / D ≤ 255 := by
      have hf := Nat.floor_le_floor (α := ℚ) hle
      rw [Nat.floor_div_nat, Nat.floor_natCast] at hf
      simpa using hf
    rw [min_eq_right hle, min_eq_right hnd, Int.floor_toNat, Nat.floor_div_nat,
      Nat.floor_natCast]
  · have hnd : 255 ≤ N / D := by
      have hf := Nat.le_floor (n := 255) (α := ℚ) (by exact_mod_cast hge)
      rw [Nat.floor_div_nat, Nat.floor_natCast] at hf
      exact hf
    rw [min_eq_left hge, min_eq_left hnd]
    rw [show ((255 : ℚ)) = (((255 : Nat)) : ℚ) by norm_num, Int.floor_natCast]
    rfl

theorem dodgePix_eq (g b : Nat) (hb : b ≤ 255) :
    dodgePix g b
      = Int.toNat ⌊min 255 (max 0 ((g : ℚ) * 255 / (255 - (b : ℚ) + 1 / 10000)))⌋ := by
  have hD : 1 ≤ 2550001 - 10000 * b := by omega
  have hble : 10000 * b ≤ 2550001 := by omega
  have hden : (255 : ℚ) - (b : ℚ) + 1 / 10000
      = ((2550001 - 10000 * b : Nat) : ℚ) / ((10000 : Nat) : ℚ) := by
    rw [Nat.cast_sub hble]
    push_cast
    ring
  have hDne : ((2550001 - 10000 * b : Nat) : ℚ) ≠ 0 := by
    have : (0 : ℚ) < ((2550001 - 10000 * b : Nat) : ℚ) := by exact_mod_cast hD
    exact ne_of_gt this
  have harg : (g : ℚ) * 255 / (255 - (b : ℚ) + 1 / 10000)
      = ((2550000 * g : Nat) : ℚ) / ((2550001 - 10000 * b : Nat) : ℚ) := by
    rw [hden]
    field_simp
    ring
  rw [harg]
  exact byteFloorDiv_eq hD

/-- C7: on a concrete edge-magnitude buffer the binarization behaves as
claimed — the threshold is the interpolated 92nd percentile, pixels at or
above it become foreground 60 and all others background 255 — but the
subsequent 3×3 max filter (source line 65) does not dilate the dark
foreground: taking the window maximum on a 60-on-255 image replaces every
foreground pixel adjacent to background with 255, so the single foreground
pixel is erased (count 60 drops from 1 to 0), contradicting the code's own
"thicken outlines slightly" comment and the claimed dilation. -/
theorem C7_percentile_binarize_then_maxfilter :
    binarize (percentile92x100 ([0, 0, 0, 0, 200, 0, 0, 0, 0] : List Nat))
        (⟨3, 3, [0, 0, 0, 0, 200, 0, 0, 0, 0]⟩ : Img)
      = ⟨3, 3, [255, 255, 255, 255, 60, 255, 255, 255, 255]⟩ ∧
    ((⟨3, 3, [255, 255, 255, 255, 60, 255, 255, 255, 255]⟩ : Img).px.count 60 = 1 ∧
      maxFilter3 (⟨3, 3, [255, 255, 255, 255, 60, 255, 255, 255, 255]⟩ : Img)
        = ⟨3, 3, [255, 255, 255, 255, 255, 255, 255, 255, 255]⟩ ∧
      (maxFilter3 (⟨3, 3, [255, 255, 255, 255, 60, 255, 255, 255, 255]⟩ : Img)).px.count 60
        = 0) :=
  ⟨by decide, by decide, by decide, by decide⟩

/-- C5: with `gray` the autocontrasted grayscale (the spec's `grayBase`) and
`blurred` the radius-22 Gaussian blur of its inversion, every pixel of the
dodge stage equals `clamp(gray * 255 / (255 - blurred + ε), 0, 255)` with
`ε = 1e-4` (followed by the uint8 truncation of source line 35), and the
denominator is always positive — the blur of an inverted byte image never
exceeds 255, so the stage is total. -/
theorem C5_dodge_formula (img0 : RgbImg) (k : Nat)
    (hk : k < (dodgeBlend (grayBase img0)
      (gaussianBlur 22 (invert (grayBase img0)))).px.length) :
    (0 : ℚ) < 255 - ((gaussianBlur 22 (invert (grayBase img0))).px.getD k 0 : ℚ)
        + 1 / 10000 ∧
      (dodgeBlend (grayBase img0) (gaussianBlur 22 (invert (grayBase img0)))).px.getD k 0
        = Int.toNat ⌊min 255 (max 0 (((grayBase img0).px.getD k 0 : ℚ) * 255
            / (255 - ((gaussianBlur 22 (invert (grayBase img0))).px.getD k 0 : ℚ)
              + 1 / 10000)))⌋ := by
  have hb : (gaussianBlur 22 (invert (grayBase img0))).px.getD k 0 ≤ 255 :=
    getD_le_of_forall_le (gaussianBlur_px_le (invert_px_le _)) k
  constructor
  · have hbq : ((gaussianBlur 22 (invert (grayBase img0))).px.getD k 0 : ℚ) ≤ 255 := by
      exact_mod_cast hb
    linarith
  · have hz : (dodgeBlend (grayBase img0)
        (gaussianBlur 22 (invert (grayBase img0)))).px.getD k 0
        = dodgePix ((grayBase img0).px.getD k 0)
            ((gaussianBlur 22 (invert (grayBase img0))).px.getD k 0) := by
      unfold dodgeBlend at hk ⊢
      exact zipWith_getD hk
    rw [hz]
    exact dodgePix_eq _ _ hb

theorem C5_dodge_formula_witness :
    (0 < (dodgeBlend (grayBase whitePix1)
        (gaussianBlur 22 (invert (grayBase whitePix1)))).px.length) ∧
      ((0 : ℚ) < 255
          - ((gaussianBlur 22 (invert (grayBase whitePix1))).px.getD 0 0 : ℚ) + 1 / 10000 ∧
        (dodgeBlend (grayBase whitePix1)
            (gaussianBlur 22 (invert (grayBase whitePix1)))).px.getD 0 0
          = Int.toNat ⌊min 255 (max 0 (((grayBase whitePix1).px.getD 0 0 : ℚ) * 255
              / (255 - ((gaussianBlur 22 (invert (grayBase whitePix1))).px.getD 0 0 : ℚ)
                + 1 / 10000)))⌋) :=
  ⟨by decide, C5_dodge_formula whitePix1 0 (by decide)⟩

theorem shadeStrength_le (d : String) : shadeStrength d ≤ 285 := by
  unfold shadeStrength
  repeat' split
  all_goals omega

theorem depthBlendPix_eq (k a t : Nat) (hk : k ≤ 285) :
    depthBlendPix k a t = Int.toNat ⌊min 255 (max 0 (depthBlendQ k a t))⌋ := by
  have h35 : 35 * k ≤ 10000 := by omega
  have harg : depthBlendQ k a t
      = (((10000 - 35 * k) * a + 100 * k * t : Nat) : ℚ) / ((10000 : Nat) : ℚ) := by
    unfold depthBlendQ
    rw [Nat.cast_add, Nat.cast_mul, Nat.cast_mul, Nat.cast_mul, Nat.cast_sub h35]
    push_cast
    ring
  rw [harg]
  exact byteFloorDiv_eq (by omega)

/-- C6: the depth shader maps the selector per
{none ↦ 0, light ↦ 0.22, medium ↦ 0.38, deep ↦ 0.55} (strengths are held in
hundredths, so `s = shadeStrength d / 100`); at strength 0 the styled image
passes through unchanged; at positive strength the stage blends the tone
layer — the radius-3.2-blurred, 2%-autocontrasted `grayBase` — into the
styled luminance pixelwise as `clamp((1 - 0.35 s) styled + s tone, 0, 255)`
(with the uint8 truncation), followed by a final 1%-cutoff autocontrast. -/
theorem C6_depth_shader :
    (shadeStrength "none" = 0 ∧ shadeStrength "light" = 22 ∧
      shadeStrength "medium" = 38 ∧ shadeStrength "deep" = 55) ∧
    (∀ g sk : Img, depthStage g sk "none" = sk) ∧
    (∀ (g sk : Img) (d : String), 0 < shadeStrength d →
      depthStage g sk d = autocontrast 100
        (depthBlend (shadeStrength d) sk (autocontrast 200 (gaussianBlur 4 g)))) ∧
    (∀ (d : String) (a t : Nat),
      depthBlendPix (shadeStrength d) a t
        = Int.toNat ⌊min 255 (max 0 (depthBlendQ (shadeStrength d) a t))⌋) := by
  refine ⟨⟨by decide, by decide, by decide, by decide⟩, depthStage_none, ?_, ?_⟩
  · intro g sk d hd
    simp only [depthStage, if_pos hd]
  · intro d a t
    exact depthBlendPix_eq _ _ _ (shadeStrength_le d)

theorem C6_depth_shader_witness :
    (0 < shadeStrength "light") ∧
      depthStage ⟨1, 1, [255]⟩ ⟨1, 1, [235]⟩ "light" = autocontrast 100
        (depthBlend (shadeStrength "light") ⟨1, 1, [235]⟩
          (autocontrast 200 (gaussianBlur 4 ⟨1, 1, [255]⟩))) :=
  ⟨by decide, C6_depth_shader.2.2.1 ⟨1, 1, [255]⟩ ⟨1, 1, [235]⟩ "light" (by decide)⟩
